import Mathlib

/-!
Verification development for the OpenCHAMI node-orchestrator core.

The Go sources are shallowly embedded:
 - Go `map[K]V` values are embedded as association lists with
   `lookupA` / `insertA` / `eraseA` (indexing, assignment, `delete`);
   the code never iterates over these maps, so list order is unobservable.
 - `uuid.New()` is embedded by passing the freshly generated value as an
   explicit `newID : Nat` argument at each call site.
 - Go errors are embedded as `Option String` (`none` = nil error), with the
   exact `fmt.Errorf` message text.
 - Methods that mutate their receiver return the updated state instead.
-/

namespace NodeOrch

/-- Association-list map standing for a Go `map[K]V`: first binding wins. -/
def lookupA {K V : Type} [DecidableEq K] : List (K × V) → K → Option V
  | [], _ => none
  | (k', v) :: rest, k => if k' = k then some v else lookupA rest k

/-- Go `delete(m, k)`: drop every binding of `k`. -/
def eraseA {K V : Type} [DecidableEq K] (l : List (K × V)) (k : K) : List (K × V) :=
  l.filter (fun kv => decide (kv.1 ≠ k))

/-- Go `m[k] = v`: overwrite any existing binding of `k`. -/
def insertA {K V : Type} [DecidableEq K] (l : List (K × V)) (k : K) (v : V) : List (K × V) :=
  (k, v) :: eraseA l k

/-- `xnames.NodeXname` (pkg/xnames): a wrapper around the xname string.
Map keys compare by structural equality, as Go struct keys do. -/
structure NodeXname where
  value : String
deriving DecidableEq, Repr

/-- `NodeCollectionType` (pkg/nodes/collections.go) is a string type. -/
abbrev NodeCollectionType := String

def DefaultType : NodeCollectionType := "ad-hoc"
def TenantType : NodeCollectionType := "tenant"
def JobType : NodeCollectionType := "job"
def PartitionType : NodeCollectionType := "partition"

/-- `NodeCollection` (pkg/nodes/collections.go).  UUID fields are embedded as
`Nat`; the JSON-only fields (cloud-init data) play no role in the manager. -/
structure NodeCollection where
  id : Nat
  owner : Nat
  creatorSubject : String
  description : String
  name : String
  type : NodeCollectionType
  nodes : List NodeXname
deriving DecidableEq, Repr

/-- `MutualExclusivityConstraint` (pkg/nodes/collections.go): map from node
xname to the claiming collection's UUID. -/
structure MutualExclusivityConstraint where
  existingNodes : List (NodeXname × Nat)
deriving DecidableEq, Repr

/-- `MutualExclusivityConstraint.Validate`: first member already present in
`ExistingNodes` produces the error; the claimed owner is never consulted. -/
def MutualExclusivityConstraint.validate (c : MutualExclusivityConstraint) :
    List NodeXname → Option String
  | [] => none
  | n :: rest =>
    if (lookupA c.existingNodes n).isSome then
      some ("node " ++ n.value ++ " is already assigned to another collection")
    else c.validate rest

/-- `CollectionManager` (pkg/nodes/collectionmanager.go).  The `Constraints`
map holds `CollectionConstraint` interface values; the only implementation in
the source is `MutualExclusivityConstraint`, so the interface is embedded by
that type (the Go type assertion in `CreateCollection` always succeeds). -/
structure CollectionManager where
  collectionsByID : List (Nat × NodeCollection)
  collectionsByName : List (String × NodeCollection)
  constraints : List (NodeCollectionType × MutualExclusivityConstraint)
deriving DecidableEq, Repr

/-- `CollectionManager.AddConstraint`. -/
def CollectionManager.addConstraint (m : CollectionManager) (t : NodeCollectionType)
    (c : MutualExclusivityConstraint) : CollectionManager :=
  { m with constraints := insertA m.constraints t c }

/-- `NewCollectionManager`: empty indices, one fresh mutual-exclusivity
constraint each for the partition and tenant types. -/
def newCollectionManager : CollectionManager :=
  (({ collectionsByID := [], collectionsByName := [], constraints := [] } :
      CollectionManager).addConstraint PartitionType
      { existingNodes := [] }).addConstraint TenantType { existingNodes := [] }

/-- `CollectionManager.CreateCollection`.  The argument's ID is overwritten
with the freshly generated UUID (`newID`) before anything else; on success the
members are recorded in the constraint's claim map.  Returns the error, the
updated manager, and the (mutated) argument collection. -/
def CollectionManager.createCollection (m : CollectionManager) (newID : Nat)
    (c0 : NodeCollection) : Option String × CollectionManager × NodeCollection :=
  let c := { c0 with id := newID }
  let validationErr :=
    match lookupA m.constraints c.type with
    | some mec => mec.validate c.nodes
    | none => none
  match validationErr with
  | some e => (some e, m, c)
  | none =>
    if c.name ≠ "" ∧ (lookupA m.collectionsByName c.name).isSome then
      (some ("alias " ++ c.name ++ " is already in use"), m, c)
    else
      let byName :=
        if c.name ≠ "" then insertA m.collectionsByName c.name c else m.collectionsByName
      let byID := insertA m.collectionsByID c.id c
      let constraints :=
        match lookupA m.constraints c.type with
        | some mec =>
          insertA m.constraints c.type
            { existingNodes := c.nodes.foldl (fun en n => insertA en n c.id) mec.existingNodes }
        | none => m.constraints
      (none, { collectionsByID := byID, collectionsByName := byName,
               constraints := constraints }, c)

/-- `CollectionManager.UpdateCollection`: validates the new member list against
the claim map (with no exemption for the collection's own claims), rejects a
name owned by a different ID, then re-indexes.  The claim map is not touched. -/
def CollectionManager.updateCollection (m : CollectionManager) (c : NodeCollection) :
    Option String × CollectionManager :=
  let validationErr :=
    match lookupA m.constraints c.type with
    | some mec => mec.validate c.nodes
    | none => none
  match validationErr with
  | some e => (some e, m)
  | none =>
    let nameClash : Bool :=
      if c.name = "" then false
      else
        match lookupA m.collectionsByName c.name with
        | some old => decide (old.id ≠ c.id)
        | none => false
    if nameClash then (some ("alias " ++ c.name ++ " is already in use"), m)
    else
      let byName :=
        if c.name ≠ "" then insertA m.collectionsByName c.name c else m.collectionsByName
      (none, { m with collectionsByName := byName,
                      collectionsByID := insertA m.collectionsByID c.id c })

/-- `CollectionManager.DeleteCollection`: removes both indices.  The constraint
claim maps are left untouched, exactly as in the source. -/
def CollectionManager.deleteCollection (m : CollectionManager) (cid : Nat) :
    Option String × CollectionManager :=
  match lookupA m.collectionsByID cid with
  | none => (some ("collection " ++ toString cid ++ " not found"), m)
  | some c =>
    let byName :=
      if c.name ≠ "" then eraseA m.collectionsByName c.name else m.collectionsByName
    (none, { m with collectionsByName := byName,
                    collectionsByID := eraseA m.collectionsByID cid })

/-- The cluster-wide mutual-exclusivity invariant as the specification states
it: for every type with a registered constraint, a node xname belongs to at
most one existing collection of that type. -/
def typeMutualExclusivity (m : CollectionManager) : Prop :=
  ∀ t mec, lookupA m.constraints t = some mec →
    ∀ i₁ c₁ i₂ c₂, lookupA m.collectionsByID i₁ = some c₁ →
      lookupA m.collectionsByID i₂ = some c₂ →
      c₁.type = t → c₂.type = t → i₁ ≠ i₂ →
      ∀ x, x ∈ c₁.nodes → x ∉ c₂.nodes

/-- The node xname used by the specification's scenarios. -/
def xnDemo : NodeXname := ⟨"x1c0s0b0n0"⟩

/-- Partition collection named "A" with no members. -/
def collAEmpty : NodeCollection :=
  { id := 0, owner := 0, creatorSubject := "", description := "",
    name := "A", type := PartitionType, nodes := [] }

/-- Partition collection named "B" with no members. -/
def collBEmpty : NodeCollection :=
  { collAEmpty with name := "B" }

/-- Partition collection named "A" containing `x1c0s0b0n0`. -/
def collAx : NodeCollection :=
  { collAEmpty with nodes := [xnDemo] }

/-- Partition collection named "B" containing `x1c0s0b0n0`. -/
def collBx : NodeCollection :=
  { collAEmpty with name := "B", nodes := [xnDemo] }

/-- Tenant collection named "C" containing `x1c0s0b0n0`. -/
def collCx : NodeCollection :=
  { collAEmpty with name := "C", type := TenantType, nodes := [xnDemo] }

/-- `true` iff `pat` is a prefix of `s` (on character lists). -/
def charsHavePrefix : List Char → List Char → Bool
  | _, [] => true
  | [], _ :: _ => false
  | a :: as, b :: bs => a == b && charsHavePrefix as bs

/-- `true` iff `pat` occurs as a contiguous segment of `s`. -/
def charsContain (s pat : List Char) : Bool :=
  match s with
  | [] => pat.isEmpty
  | _ :: rest => charsHavePrefix s pat || charsContain rest pat

/-- `true` iff `pat` occurs as a substring of `s`. -/
def strContains (s pat : String) : Bool := charsContain s.data pat.data

/-- C1: the specification's cluster-wide mutual-exclusivity invariant fails on
the code.  All four operations succeed: create partition "A" (no members),
create partition "B" (no members), update "A" to contain `x1c0s0b0n0`, update
"B" to contain the same node — `UpdateCollection` never records claims in the
constraint map, so afterwards two existing partition collections both contain
`x1c0s0b0n0`. -/
theorem c1_mutual_exclusivity_violated_by_update :
    (newCollectionManager.createCollection 0 collAEmpty).1 = none ∧
    ((newCollectionManager.createCollection 0 collAEmpty).2.1.createCollection 1
        collBEmpty).1 = none ∧
    (((newCollectionManager.createCollection 0 collAEmpty).2.1.createCollection 1
        collBEmpty).2.1.updateCollection { collAEmpty with id := 0, nodes := [xnDemo] }).1 =
      none ∧
    ((((newCollectionManager.createCollection 0 collAEmpty).2.1.createCollection 1
        collBEmpty).2.1.updateCollection
        { collAEmpty with id := 0, nodes := [xnDemo] }).2.updateCollection
        { collBEmpty with id := 1, nodes := [xnDemo] }).1 = none ∧
    ¬ typeMutualExclusivity
      ((((newCollectionManager.createCollection 0 collAEmpty).2.1.createCollection 1
        collBEmpty).2.1.updateCollection
        { collAEmpty with id := 0, nodes := [xnDemo] }).2.updateCollection
        { collBEmpty with id := 1, nodes := [xnDemo] }).2 := by
  refine ⟨by decide, by decide, by decide, by decide, fun h => ?_⟩
  have hx := h PartitionType ⟨[]⟩ (by decide) 0 { collAEmpty with id := 0, nodes := [xnDemo] }
    1 { collBEmpty with id := 1, nodes := [xnDemo] } (by decide) (by decide) (by decide)
    (by decide) (by decide) xnDemo (by decide)
  exact hx (by decide)

/-- C2: deleting a partition collection does not release its members'
constraint claims.  Create partition "A" with `x1c0s0b0n0` (succeeds), delete
it (succeeds), then create partition "B" with the same node: the create is
rejected, because `DeleteCollection` never removes the member from
`MutualExclusivityConstraint.ExistingNodes`. -/
theorem c2_delete_does_not_release_members :
    (newCollectionManager.createCollection 10 collAx).1 = none ∧
    ((newCollectionManager.createCollection 10 collAx).2.1.deleteCollection 10).1 = none ∧
    (((newCollectionManager.createCollection 10 collAx).2.1.deleteCollection
        10).2.createCollection 11 collBx).1 =
      some "node x1c0s0b0n0 is already assigned to another collection" := by decide

/-- C3: re-submitting a collection's own member list through
`UpdateCollection` is rejected: `Validate` has no exemption for claims held by
the collection being updated, so the node "A" itself claimed at creation time
triggers the constraint violation. -/
theorem c3_update_rejects_own_members :
    (newCollectionManager.createCollection 10 collAx).1 = none ∧
    ((newCollectionManager.createCollection 10 collAx).2.1.updateCollection
        { collAx with id := 10 }).1 =
      some "node x1c0s0b0n0 is already assigned to another collection" := by decide

/-- C4 counterexample: the conflict returned for partition collection "B" does
not name collection "A" — the error text mentions only the node, and contains
neither A's name nor A's generated ID (7777). -/
theorem c4_conflict_does_not_name_collection_a :
    ((newCollectionManager.createCollection 7777 collAx).2.1.createCollection 8888 collBx).1 =
      some "node x1c0s0b0n0 is already assigned to another collection" ∧
    strContains "node x1c0s0b0n0 is already assigned to another collection" "A" = false ∧
    strContains "node x1c0s0b0n0 is already assigned to another collection" "7777" = false := by
  decide

/-- C4 amended: on a fresh manager, creating partition "A" with `x1c0s0b0n0`
succeeds; creating partition "B" with the same node fails with a constraint
violation identifying the conflicting node (but not naming "A"); creating
tenant "C" with the same node succeeds (separate constraint scope). -/
theorem c4_partition_tenant_scoping :
    (newCollectionManager.createCollection 7777 collAx).1 = none ∧
    ((newCollectionManager.createCollection 7777 collAx).2.1.createCollection 8888 collBx).1 =
      some "node x1c0s0b0n0 is already assigned to another collection" ∧
    strContains "node x1c0s0b0n0 is already assigned to another collection" "x1c0s0b0n0" =
      true ∧
    (((newCollectionManager.createCollection 7777 collAx).2.1.createCollection 8888
        collBx).2.1.createCollection 9999 collCx).1 = none := by decide

/-- C10: `CreateCollection` always returns the argument with its ID replaced
by the freshly generated UUID (even on failure), and whenever it returns an
error the manager's indices and constraint claim maps are unchanged. -/
theorem c10_create_overwrites_id_and_errors_leave_state (m : CollectionManager)
    (newID : Nat) (c : NodeCollection) :
    (m.createCollection newID c).2.2 = { c with id := newID } ∧
    ((m.createCollection newID c).1.isSome → (m.createCollection newID c).2.1 = m) := by
  dsimp only [CollectionManager.createCollection]
  split
  · exact ⟨rfl, fun _ => rfl⟩
  · split
    · exact ⟨rfl, fun _ => rfl⟩
    · exact ⟨rfl, fun h => absurd h (by simp)⟩

/-- C10 witness: a failing create (partition "B" colliding with "A") leaves
the manager untouched and returns the argument with ID 5. -/
theorem c10_witness :
    ((newCollectionManager.createCollection 3 collAx).2.1.createCollection 5 collBx).2.2 =
      { collBx with id := 5 } ∧
    ((newCollectionManager.createCollection 3 collAx).2.1.createCollection 5 collBx).2.1 =
      (newCollectionManager.createCollection 3 collAx).2.1 := by
  have h := c10_create_overwrites_id_and_errors_leave_state
    (newCollectionManager.createCollection 3 collAx).2.1 5 collBx
  exact ⟨h.1, h.2 (by decide)⟩

/-- Numeric value of a digit run (the `strconv.Atoi` of a matched group). -/
def natOfDigits (l : List Char) : Nat :=
  l.foldl (fun a c => 10 * a + (c.toNat - 48)) 0

/-- Full-string match of the compiled `Valid()` regex
`x(\d:3,5:)c(\d:1,3:)s(\d:1,3:)b(\d:1,3:)n(\d:1,3:)` (braces written as colons
here), returning the five captured digit groups.  Because each group is a
digit run delimited by a non-digit literal (`c`, `s`, `b`, `n`, end of
string), any regex match must bind each group to the full maximal digit run
at its position, so this deterministic scan is equivalent to the anchored
regex. -/
def matchNodeXname (s : String) :
    Option (List Char × List Char × List Char × List Char × List Char) :=
  match s.data with
  | 'x' :: r0 =>
    let cab := r0.takeWhile (·.isDigit)
    let r1 := r0.dropWhile (·.isDigit)
    if cab.length < 3 ∨ 5 < cab.length then none
    else
      match r1 with
      | 'c' :: r2 =>
        let cha := r2.takeWhile (·.isDigit)
        let r3 := r2.dropWhile (·.isDigit)
        if cha.length < 1 ∨ 3 < cha.length then none
        else
          match r3 with
          | 's' :: r4 =>
            let slo := r4.takeWhile (·.isDigit)
            let r5 := r4.dropWhile (·.isDigit)
            if slo.length < 1 ∨ 3 < slo.length then none
            else
              match r5 with
              | 'b' :: r6 =>
                let bp := r6.takeWhile (·.isDigit)
                let r7 := r6.dropWhile (·.isDigit)
                if bp.length < 1 ∨ 3 < bp.length then none
                else
                  match r7 with
                  | 'n' :: r8 =>
                    let np := r8.takeWhile (·.isDigit)
                    let r9 := r8.dropWhile (·.isDigit)
                    if np.length < 1 ∨ 3 < np.length ∨ r9 ≠ [] then none
                    else some (cab, cha, slo, bp, np)
                  | _ => none
              | _ => none
          | _ => none
      | _ => none
  | _ => none

/-- `NodeXname.Valid` (the Go `(bool, error)` pair): regex match, then the
chassis range check — the only range check the function performs. -/
def NodeXname.valid (x : NodeXname) : Bool × Option String :=
  match matchNodeXname x.value with
  | none => (false, some "XName does not match regex")
  | some (_, cha, _, _, _) =>
    let chassis := natOfDigits cha
    if 256 ≤ chassis then
      (false, some ("chassis number " ++ toString chassis ++
        " exceeds the maximum allowed value of 255"))
    else (true, none)

/-- C5 counterexample: `Valid()` rejects the specification's "valid" example
`x1c0s0b0n0`: the regex's cabinet group requires 3 to 5 digits and "1" has
one. -/
theorem c5_rejects_spec_valid_example :
    (NodeXname.mk "x1c0s0b0n0").valid = (false, some "XName does not match regex") := by
  decide

/-- C5 amended: all three of the specification's examples are rejected —
`x1c0s0b0n0` and `x1c999s0b0n0` because a cabinet field must have 3 to 5
digits, `x100000c0s0b0n0` because 6 digits exceed that bound; names whose
cabinet has 3 to 5 digits are accepted up to chassis 255 and rejected from
chassis 256 on. -/
theorem c5_xname_validation_verdicts :
    (NodeXname.mk "x1c0s0b0n0").valid.1 = false ∧
    (NodeXname.mk "x100000c0s0b0n0").valid.1 = false ∧
    (NodeXname.mk "x1c999s0b0n0").valid.1 = false ∧
    (NodeXname.mk "x100c0s0b0n0").valid = (true, none) ∧
    (NodeXname.mk "x100c255s0b0n0").valid = (true, none) ∧
    (NodeXname.mk "x100c256s0b0n0").valid.1 = false := by decide

/-- One entry of the snapshot root's directory listing, with the two files
`RestoreParquet` needs recorded as flags. -/
structure SnapshotEntry where
  name : String
  isDir : Bool
  hasSchemaSql : Bool
  hasLoadSql : Bool
deriving DecidableEq, Repr

/-- Lexicographic strict comparison of char lists: the Go byte-wise `<` on
strings (UTF-8 byte order equals code-point order). -/
def charListLtBool : List Char → List Char → Bool
  | [], [] => false
  | [], _ :: _ => true
  | _ :: _, [] => false
  | a :: as, b :: bs => if a < b then true else if b < a then false else charListLtBool as bs

/-- Go's `s1 < s2` on strings. -/
def strLtBool (a b : String) : Bool := charListLtBool a.data b.data

/-- Insertion step for a list sorted descending by `key` — the comparator is
`sort.Slice`'s `dirs[i].Name() > dirs[j].Name()`. -/
def insertDescBy {α : Type} (key : α → String) (a : α) : List α → List α
  | [] => [a]
  | b :: bs => if strLtBool (key b) (key a) then a :: b :: bs else b :: insertDescBy key a bs

/-- Sort descending by `key` (insertion sort; ties are unobservable here). -/
def sortDescBy {α : Type} (key : α → String) : List α → List α
  | [] => []
  | a :: as => insertDescBy key a (sortDescBy key as)

/-- `findMostRecentSnapshotDir`: read the root (a `none` listing embeds
`os.ReadDir` failing because the root is missing), keep the directories, sort
descending by name and take the first; no directories is an error.  The
chosen directory entry stands for the returned path. -/
def findMostRecentSnapshotDir (listing : Option (List SnapshotEntry)) :
    Except String SnapshotEntry :=
  match listing with
  | none => .error "snapshot root unreadable"
  | some entries =>
    match sortDescBy (fun e => e.name) (entries.filter (·.isDir)) with
    | [] => .error "no snapshot directories found"
    | d :: _ => .ok d

/-- `RestoreParquet` via `executeSQLFile`: `os.Open` of a missing schema.sql
or load.sql yields the wrapped error. -/
def restoreParquet (e : SnapshotEntry) : Option String :=
  if !e.hasSchemaSql then
    some "error executing schema.sql: open schema.sql: no such file or directory"
  else if !e.hasLoadSql then
    some "error executing load.sql: open load.sql: no such file or directory"
  else none

/-- `DuckDBStorage.restore`. -/
def restoreSnapshot (listing : Option (List SnapshotEntry)) : Option String :=
  match findMostRecentSnapshotDir listing with
  | .error e => some e
  | .ok d => restoreParquet d

/-- Observable outcome of `NewDuckDBStorage`: whether a usable store was
returned, and the option errors that were logged as warnings. -/
structure NewStorageResult where
  storeReturned : Bool
  warnings : List String
deriving DecidableEq, Repr

/-- `NewDuckDBStorage(path, WithRestore(root), ...)`: each option's error is
logged via `log.Warn` and then discarded; the constructor always returns the
store with a nil error. -/
def newDuckDBStorageWithRestore (listing : Option (List SnapshotEntry)) :
    NewStorageResult :=
  match restoreSnapshot listing with
  | some e => { storeReturned := true, warnings := [e] }
  | none => { storeReturned := true, warnings := [] }

/-- The boolean comparison agrees with the lexicographic order on char
lists (`List.Lex` over `Char`'s order). -/
theorem charListLtBool_iff_lex :
    ∀ a b : List Char, charListLtBool a b = true ↔ List.Lex (· < ·) a b := by
  intro a
  induction a with
  | nil =>
    intro b
    cases b with
    | nil =>
      refine iff_of_false (by simp [charListLtBool]) ?_
      intro h; cases h
    | cons x xs => exact iff_of_true (by simp [charListLtBool]) List.Lex.nil
  | cons a as ih =>
    intro b
    cases b with
    | nil =>
      refine iff_of_false (by simp [charListLtBool]) ?_
      intro h; cases h
    | cons x xs =>
      simp only [charListLtBool]
      by_cases h1 : a < x
      · exact iff_of_true (by simp [h1]) (List.Lex.rel h1)
      · by_cases h2 : x < a
        · refine iff_of_false (by simp [h1, h2]) ?_
          intro h
          cases h with
          | cons h => exact absurd h2 (lt_irrefl _)
          | rel hr => exact absurd hr h1
        · have hax : a = x := le_antisymm (le_of_not_lt h2) (le_of_not_lt h1)
          subst hax
          rw [if_neg h1, if_neg h2, ih xs]
          constructor
          · exact fun h => List.Lex.cons h
          · intro h
            cases h with
            | cons h => exact h
            | rel hr => exact absurd hr h1

/-- The boolean comparison agrees with Mathlib's linear order on `String`. -/
theorem strLtBool_iff_lt (a b : String) : strLtBool a b = true ↔ a < b := by
  rw [String.lt_iff_toList_lt]
  exact charListLtBool_iff_lex a.data b.data

theorem insertDescBy_ne_nil {α : Type} (key : α → String) (a : α) (l : List α) :
    insertDescBy key a l ≠ [] := by
  cases l with
  | nil => simp [insertDescBy]
  | cons b bs =>
    simp only [insertDescBy]
    split <;> simp

theorem sortDescBy_eq_nil {α : Type} (key : α → String) (l : List α)
    (h : sortDescBy key l = []) : l = [] := by
  cases l with
  | nil => rfl
  | cons a t =>
    simp only [sortDescBy] at h
    exact absurd h (insertDescBy_ne_nil key a (sortDescBy key t))

/-- The head of the descending sort is a member and a maximum of the list. -/
theorem sortDescBy_head_max {α : Type} (key : α → String) :
    ∀ (l : List α) (d : α) (ds : List α), sortDescBy key l = d :: ds →
      d ∈ l ∧ ∀ x ∈ l, key x ≤ key d := by
  intro l
  induction l with
  | nil => intro d ds h; simp [sortDescBy] at h
  | cons a t ih =>
    intro d ds h
    simp only [sortDescBy] at h
    cases hs : sortDescBy key t with
    | nil =>
      have ht : t = [] := sortDescBy_eq_nil key t hs
      rw [hs] at h
      simp only [insertDescBy] at h
      obtain ⟨h1, _⟩ := List.cons.injEq .. ▸ h
      subst ht
      subst h1
      exact ⟨List.mem_singleton_self a, by intro x hx; simp at hx; subst hx; exact le_refl _⟩
    | cons e es =>
      have ihe := ih e es hs
      rw [hs] at h
      simp only [insertDescBy] at h
      split at h
      next hb =>
        have hlt : key e < key a := (strLtBool_iff_lt (key e) (key a)).mp hb
        injection h with h1 _
        subst h1
        refine ⟨List.mem_cons_self a t, ?_⟩
        intro x hx
        rcases List.mem_cons.mp hx with hxa | hxt
        · subst hxa; exact le_refl _
        · exact le_trans (ihe.2 x hxt) (le_of_lt hlt)
      next hb =>
        have hnlt : ¬ key e < key a := fun hc =>
          hb ((strLtBool_iff_lt (key e) (key a)).mpr hc)
        injection h with h1 _
        subst h1
        refine ⟨List.mem_cons_of_mem a ihe.1, ?_⟩
        intro x hx
        rcases List.mem_cons.mp hx with hxa | hxt
        · subst hxa; exact le_of_not_lt hnlt
        · exact ihe.2 x hxt

/-- C6: with at least one subdirectory under the snapshot root,
`findMostRecentSnapshotDir` returns a subdirectory whose name is greater than
or equal to every subdirectory name (the lexicographically greatest); with no
subdirectories it returns the "no snapshot directories found" error. -/
theorem c6_restore_selects_lex_greatest (entries : List SnapshotEntry) :
    (entries.filter (·.isDir) = [] →
      findMostRecentSnapshotDir (some entries) =
        .error "no snapshot directories found") ∧
    (entries.filter (·.isDir) ≠ [] →
      ∃ d, findMostRecentSnapshotDir (some entries) = .ok d ∧
        d ∈ entries ∧ d.isDir = true ∧
        ∀ x ∈ entries, x.isDir = true → x.name ≤ d.name) := by
  constructor
  · intro h
    simp [findMostRecentSnapshotDir, h, sortDescBy]
  · intro h
    cases hs : sortDescBy (fun e => e.name) (entries.filter (·.isDir)) with
    | nil => exact absurd (sortDescBy_eq_nil _ _ hs) h
    | cons d ds =>
      have hm := sortDescBy_head_max (fun e => e.name) (entries.filter (·.isDir)) d ds hs
      refine ⟨d, ?_, ?_, ?_, ?_⟩
      · simp [findMostRecentSnapshotDir, hs]
      · exact (List.mem_filter.mp hm.1).1
      · simpa using (List.mem_filter.mp hm.1).2
      · intro x hx hxdir
        exact hm.2 x (List.mem_filter.mpr ⟨hx, by simp [hxdir]⟩)

/-- The specification's restore-selection example listing. -/
def demoListing : List SnapshotEntry :=
  [⟨"2024-01-01T00-00-00", true, true, true⟩, ⟨"2024-06-01T00-00-00", true, true, true⟩]

/-- C6 witness: on the spec's example listing the later timestamp,
`2024-06-01T00-00-00`, is selected. -/
theorem c6_witness :
    demoListing.filter (·.isDir) ≠ [] ∧
    (∃ d, findMostRecentSnapshotDir (some demoListing) = .ok d ∧
      d ∈ demoListing ∧ d.isDir = true ∧
      ∀ x ∈ demoListing, x.isDir = true → x.name ≤ d.name) ∧
    findMostRecentSnapshotDir (some demoListing) =
      .ok ⟨"2024-06-01T00-00-00", true, true, true⟩ := by
  refine ⟨by decide, (c6_restore_selects_lex_greatest demoListing).2 (by decide), ?_⟩
  rfl

/-- C7: `NewDuckDBStorage` with restore requested never fails: a missing root
and an empty root produce a store plus a warning (as the claim says), but a
structurally invalid most-recent snapshot — here a directory missing
schema.sql and load.sql — ALSO produces a usable store with only a warning,
where the claim requires fatal failure. -/
theorem c7_restore_errors_never_fatal :
    newDuckDBStorageWithRestore none =
      { storeReturned := true, warnings := ["snapshot root unreadable"] } ∧
    newDuckDBStorageWithRestore (some []) =
      { storeReturned := true, warnings := ["no snapshot directories found"] } ∧
    newDuckDBStorageWithRestore
        (some [⟨"2024-01-01T00-00-00", true, false, false⟩]) =
      { storeReturned := true,
        warnings :=
          ["error executing schema.sql: open schema.sql: no such file or directory"] } :=
  ⟨rfl, rfl, rfl⟩

/-- The fields of `ComputeNode` that the storage layer's search and lookup
queries touch.  `hostname` and `architecture` carry no `omitempty` tag, so
they are always marshaled; the others are optional. -/
structure ComputeNodeModel where
  hostname : String
  architecture : String
  xname : Option String
  bootMac : Option String
  bootIpv4 : Option String
  bootIpv6 : Option String
  bmcMac : Option String
deriving DecidableEq, Repr

/-- The JSON document stored in a row's `data` column, as flattened
path/value pairs; the nested BMC MAC is keyed by its extraction path. -/
def marshalComputeNode (n : ComputeNodeModel) : List (String × String) :=
  [("hostname", n.hostname), ("architecture", n.architecture)]
    ++ (match n.xname with | some v => [("xname", v)] | none => [])
    ++ (match n.bootMac with | some v => [("boot_mac", v)] | none => [])
    ++ (match n.bootIpv4 with | some v => [("boot_ipv4_address", v)] | none => [])
    ++ (match n.bootIpv6 with | some v => [("boot_ipv6_address", v)] | none => [])
    ++ (match n.bmcMac with | some v => [("bmc.mac_address", v)] | none => [])

/-- DuckDB's `json_extract(data, path)`: `none` is SQL NULL. -/
def jsonExtract (doc : List (String × String)) (path : String) : Option String :=
  lookupA doc path

/-- `DuckDBStorage.SaveComputeNode`: `INSERT ... ON CONFLICT(id) DO UPDATE`,
an upsert by primary key that never reports a missing row. -/
def saveComputeNode (table : List (Nat × ComputeNodeModel)) (nodeID : Nat)
    (node : ComputeNodeModel) : Option String × List (Nat × ComputeNodeModel) :=
  (none, insertA table nodeID node)

/-- `DuckDBStorage.UpdateComputeNode`: delegates to `SaveComputeNode`. -/
def updateComputeNode (table : List (Nat × ComputeNodeModel)) (nodeID : Nat)
    (node : ComputeNodeModel) : Option String × List (Nat × ComputeNodeModel) :=
  saveComputeNode table nodeID node

/-- `DuckDBStorage.DeleteComputeNode`: `DELETE FROM compute_nodes WHERE id = ?`
— deleting an absent id affects zero rows and reports no error. -/
def deleteComputeNode (table : List (Nat × ComputeNodeModel)) (nodeID : Nat) :
    Option String × List (Nat × ComputeNodeModel) :=
  (none, eraseA table nodeID)

/-- `storage.NodeSearchOptions`: zero values mean "filter not supplied". -/
structure NodeSearchOptions where
  xname : String := ""
  hostname : String := ""
  arch : String := ""
  bootMAC : String := ""
  bmcMAC : String := ""
  missingXName : Bool := false
  missingHostname : Bool := false
  missingArch : Bool := false
  missingBootMAC : Bool := false
  missingBMCMAC : Bool := false
  missingIPV4 : Bool := false
  missingIPV6 : Bool := false
deriving DecidableEq, Repr

/-- The WHERE clause built by `DuckDBStorage.SearchComputeNodes` (option
form), one conjunct per supplied filter, with the exact `json_extract` paths
of the source: the arch filters read path `arch`, and the `MissingIPV6`
filter reads path `boot_ipv4_address`, as the SQL strings do.  An equality
conjunct over a NULL extraction is not true, so such rows are excluded. -/
def matchesNode (o : NodeSearchOptions) (doc : List (String × String)) : Bool :=
  (o.xname == "" || jsonExtract doc "xname" == some o.xname) &&
  (o.hostname == "" || jsonExtract doc "hostname" == some o.hostname) &&
  (o.arch == "" || jsonExtract doc "arch" == some o.arch) &&
  (o.bootMAC == "" || jsonExtract doc "boot_mac" == some o.bootMAC) &&
  (o.bmcMAC == "" || jsonExtract doc "bmc.mac_address" == some o.bmcMAC) &&
  (!o.missingXName || (jsonExtract doc "xname").isNone) &&
  (!o.missingHostname || (jsonExtract doc "hostname").isNone) &&
  (!o.missingArch || (jsonExtract doc "arch").isNone) &&
  (!o.missingBootMAC || (jsonExtract doc "boot_mac").isNone) &&
  (!o.missingBMCMAC || (jsonExtract doc "bmc.mac_address").isNone) &&
  (!o.missingIPV4 || (jsonExtract doc "boot_ipv4_address").isNone) &&
  (!o.missingIPV6 || (jsonExtract doc "boot_ipv4_address").isNone)

/-- `SELECT data FROM compute_nodes WHERE 1=1 AND ...`: every stored row's
document that satisfies the built conjunction. -/
def searchComputeNodes (o : NodeSearchOptions) (table : List (Nat × ComputeNodeModel)) :
    List (List (String × String)) :=
  (table.map (fun r => marshalComputeNode r.2)).filter (matchesNode o)

/-- A node used for the absent-key scenarios. -/
def demoNode : ComputeNodeModel :=
  { hostname := "node01", architecture := "x86_64", xname := some "x100c0s0b0n0",
    bootMac := some "aa:bb:cc:dd:ee:01", bootIpv4 := none, bootIpv6 := none,
    bmcMac := none }

/-- C8: on an empty store, `UpdateComputeNode` of an absent id returns a nil
error and INSERTS the row (upsert), and `DeleteComputeNode` of an absent id
returns a nil error — neither reports NotFound. -/
theorem c8_absent_key_no_notfound :
    updateComputeNode [] 7 demoNode = (none, [(7, demoNode)]) ∧
    deleteComputeNode [] 7 = (none, []) := by decide

/-- Node with an IPv6 boot address but no IPv4 one. -/
def nodeIpv6Only : ComputeNodeModel :=
  { hostname := "h1", architecture := "x86_64", xname := none, bootMac := none,
    bootIpv4 := none, bootIpv6 := some "fd00::1", bmcMac := none }

/-- Node with an IPv4 boot address but no IPv6 one. -/
def nodeIpv4Only : ComputeNodeModel :=
  { nodeIpv6Only with bootIpv4 := some "10.0.0.1", bootIpv6 := none }

/-- C9: the search predicates diverge from the claim.  The missing-IPv6
filter returns a node whose IPv6 field is present (it tests the IPv4 path)
and drops a node whose IPv6 field is absent (but whose IPv4 is present); the
arch equality filter matches no stored node because it reads path `arch`
while nodes are stored under `architecture`.  The empty predicate set does
return the full table. -/
theorem c9_search_filters_diverge :
    searchComputeNodes { missingIPV6 := true } [(1, nodeIpv6Only)] =
      [marshalComputeNode nodeIpv6Only] ∧
    (jsonExtract (marshalComputeNode nodeIpv6Only) "boot_ipv6_address").isSome = true ∧
    searchComputeNodes { missingIPV6 := true } [(2, nodeIpv4Only)] = [] ∧
    jsonExtract (marshalComputeNode nodeIpv4Only) "boot_ipv6_address" = none ∧
    searchComputeNodes { arch := "x86_64" } [(1, nodeIpv6Only)] = [] ∧
    jsonExtract (marshalComputeNode nodeIpv6Only) "architecture" = some "x86_64" ∧
    searchComputeNodes {} [(1, nodeIpv6Only)] = [marshalComputeNode nodeIpv6Only] := by
  decide

end NodeOrch
